import Mathlib

/-!
Shallow embedding of the random-matchmaking engine of the chat backend
(canonical variant: the socket server with `normalizeInterests`,
`waitingQueue` of `{ socketId, timestamp }` entries, `randomMatches`,
`WAITING_THRESHOLD = 15000`, plus the `cancelRandomMatch` handler of the
sibling variant).

Modelling conventions:
  * JS millisecond clocks are `Nat`.
  * JS objects used as string-keyed maps become insertion-ordered
    association lists (`jsGet` / `jsSet` / `jsRemove` mirror property
    read, write and `delete`).
  * The external profile store (Supabase `user_profiles`) is a parameter
    `profiles : String → Option Profile`; a failed/absent fetch is `none`.
  * `date_of_birth` strings are modelled as already-parsed epoch
    milliseconds (`Option Int`); date-string parsing lives outside the
    subsystem.
  * Socket emissions are collected as a list of `Emit` values.
-/

namespace Circle

/-- `WAITING_THRESHOLD = 15000` (15 seconds), from the source. -/
def WAITING_THRESHOLD : Nat := 15000

/-- One `waitingQueue` element: `{ socketId, timestamp }`. -/
structure WaitingEntry where
  socketId : String
  timestamp : Nat
deriving DecidableEq, Repr

/-- A profile-store row as selected by the matchmaking queries. -/
structure Profile where
  username : Option String
  interests : Option String
  gender : Option String
  location : Option String
  date_of_birth : Option Int
  avatar_url : Option String
deriving DecidableEq, Repr

/-- The denormalized peer view stored in `matchedUserData`. -/
structure MatchedUser where
  id : String
  name : String
  age : Option Int
  location : Option String
  gender : Option String
  avatar : String
deriving DecidableEq, Repr

/-- One `randomMatches[roomId]` record. -/
structure MatchRoom where
  users : List String
  acceptances : List (String × Bool)
  matchedUserData : List (String × MatchedUser)
deriving DecidableEq, Repr

/-- The server's mutable in-memory state: `users`, `waitingQueue`,
`randomMatches`. -/
structure ServerState where
  users : List (String × String)
  waitingQueue : List WaitingEntry
  randomMatches : List (String × MatchRoom)
deriving DecidableEq, Repr

/-- Destination of a socket emission: a single socket (`io.to(socketId)` /
`socket.emit`) or a broadcast channel (`io.to(roomId)` on a joined room). -/
inductive EmitTarget where
  | socket (sid : String)
  | room (roomId : String)
deriving DecidableEq, Repr

/-- The `randomMatchStatus` payload shape. -/
structure Payload where
  status : String
  matchedUser : Option MatchedUser
  roomId : Option String
  message : Option String
deriving DecidableEq, Repr

/-- A single emission. -/
structure Emit where
  target : EmitTarget
  payload : Payload
deriving DecidableEq, Repr

/-! ### JS-object association maps -/

/-- Property read `m[k]`: first binding wins (bindings are unique by
construction of `jsSet`). -/
def jsGet {V : Type} (m : List (String × V)) (k : String) : Option V :=
  match m with
  | [] => none
  | (k', v) :: rest => if k' = k then some v else jsGet rest k

/-- Property write `m[k] = v`: replaces in place or appends. -/
def jsSet {V : Type} (m : List (String × V)) (k : String) (v : V) :
    List (String × V) :=
  match m with
  | [] => [(k, v)]
  | (k', v') :: rest =>
    if k' = k then (k, v) :: rest else (k', v') :: jsSet rest k v

/-- Property deletion `delete m[k]`. -/
def jsRemove {V : Type} (m : List (String × V)) (k : String) :
    List (String × V) :=
  match m with
  | [] => []
  | (k', v') :: rest =>
    if k' = k then rest else (k', v') :: jsRemove rest k

/-! ### Interest normalization -/

/-- The character class matched by the JS regex `\s` (whitespace). -/
def isJsWhitespace (c : Char) : Bool :=
  let n := c.toNat
  n = 32 || n = 9 || n = 10 || n = 11 || n = 12 || n = 13 ||
  n = 160 || n = 5760 || (8192 ≤ n && n ≤ 8202) ||
  n = 8232 || n = 8233 || n = 8239 || n = 8287 || n = 12288 || n = 65279

/-- `text.split(/,\s*|;/)` on a character list, as the left-to-right
regex scan: a comma ends the current piece and greedily consumes the
following whitespace (`skipWs` set), a semicolon ends the current piece,
anything else is content. `acc` holds the current piece reversed. -/
def splitSep (skipWs : Bool) (acc : List Char) : List Char → List (List Char)
  | [] => [acc.reverse]
  | c :: rest =>
    if skipWs && isJsWhitespace c then splitSep true acc rest
    else if c = ',' then acc.reverse :: splitSep true [] rest
    else if c = ';' then acc.reverse :: splitSep false [] rest
    else splitSep false (c :: acc) rest

/-- `String.prototype.trim()` (JS whitespace from both ends). -/
def jsTrim (l : List Char) : List Char :=
  ((l.dropWhile isJsWhitespace).reverse.dropWhile isJsWhitespace).reverse

/-- `normalizeInterests`: guard on falsy input (`null` / empty string),
split on `/,\s*|;/`, lowercase (ASCII, where JS `toLowerCase`
coincides with `Char.toLower`), trim, drop empty pieces. -/
def normalizeInterests : Option String → List String
  | none => []
  | some s =>
    if s = "" then []
    else
      (((splitSep false [] s.data).map
          (fun piece => jsTrim (piece.map Char.toLower))).filter
        (fun t => 0 < t.length)).map String.mk

/-! ### Small helpers used when building `matchedUserData` -/

/-- JS `a || b` on an optional string: falsy (`null` / `""`) falls back. -/
def jsOrElse (o : Option String) (d : String) : String :=
  match o with
  | none => d
  | some s => if s = "" then d else s

/-- `s.slice(-4)`: the last four characters (whole string if shorter). -/
def sliceLast4 (s : String) : String :=
  String.mk (s.data.drop (s.data.length - 4))

/-- `new Date(ms).getUTCFullYear()`: the proleptic-Gregorian (civil) year
of the day `⌊ms / 86400000⌋` counted from 1970-01-01. -/
def utcFullYearOfDays (days : Int) : Int :=
  let z := days + 719468
  let era := z.fdiv 146097
  let doe := (z - era * 146097).toNat
  let yoe := (doe - doe / 1461 + doe / 36524 - doe / 146096) / 365
  let y : Int := (yoe : Int) + era * 400
  let doy := doe - (365 * yoe + yoe / 4 - yoe / 100)
  let mp := (5 * doy + 2) / 153
  let m := if mp < 10 then mp + 3 else mp - 9
  if m ≤ 2 then y + 1 else y

/-- `calculateAge`: `null` on a falsy date, else
`Math.abs(new Date(now - dob).getUTCFullYear() - 1970)`. -/
def calculateAge (nowMs : Int) (dob : Option Int) : Option Int :=
  match dob with
  | none => none
  | some d =>
    some (Int.ofNat (utcFullYearOfDays ((nowMs - d).fdiv 86400000) - 1970).natAbs)

/-- The per-viewer peer snapshot built at pairing time (name falls back
to `User ` + last four characters of the id, avatar to the placeholder). -/
def mkMatchedUser (uid : String) (p : Profile) (nowMs : Nat) : MatchedUser :=
  { id := uid
    name := jsOrElse p.username ("User " ++ sliceLast4 uid)
    age := calculateAge (Int.ofNat nowMs) p.date_of_birth
    location := p.location
    gender := p.gender
    avatar := jsOrElse p.avatar_url "https://via.placeholder.com/40" }

/-- JS string comparison `a < b` (lexicographic on code units), on
character lists. -/
def jsStrLtChars : List Char → List Char → Bool
  | _, [] => false
  | [], _ :: _ => true
  | a :: as, b :: bs =>
    if a.toNat < b.toNat then true
    else if b.toNat < a.toNat then false
    else jsStrLtChars as bs

/-- JS string comparison `a < b`, as used by the default `Array.sort`. -/
def jsStrLt (a b : String) : Bool := jsStrLtChars a.data b.data

/-- `"random-" + [a, b].sort().join("-")`: the sorted-pair room id. -/
def mkRoomId (a b : String) : String :=
  "random-" ++ String.intercalate "-" (if jsStrLt b a then [b, a] else [a, b])

/-! ### Event handlers -/

/-- The partner scan of `findRandomMatch`:
`waitingQueue.findIndex(entry => now - entry.timestamp < WAITING_THRESHOLD)`
followed by `waitingQueue.splice(idx, 1)` when found — the first fresh
entry is removed and returned together with the remaining pool; when no
entry is fresh the pool is returned unchanged with `none`. -/
def claimFresh (now : Nat) : List WaitingEntry → Option WaitingEntry × List WaitingEntry
  | [] => (none, [])
  | e :: rest =>
    if now - e.timestamp < WAITING_THRESHOLD then
      (some e, rest)
    else
      ((claimFresh now rest).1, e :: (claimFresh now rest).2)

/-- A `randomMatchStatus` emission to a single socket. -/
def statusEmit (sid status : String) (mu : Option MatchedUser)
    (roomId : Option String) (msg : Option String) : Emit :=
  { target := EmitTarget.socket sid
    payload := { status := status, matchedUser := mu, roomId := roomId,
                 message := msg } }

/-- Shorthand for an error-status emission to a single socket. -/
def errEmit (sid msg : String) : Emit :=
  statusEmit sid "error" none none (some msg)

/-- The `randomMatches[roomId]` record built on a successful pairing:
`sid` is the initiating socket, `other` the claimed waiting socket; each
side's `matchedUserData` entry is the *other* side's snapshot. -/
def createdRoom (sid other uid wuid : String) (p wp : Profile) (now : Nat) :
    MatchRoom :=
  { users := [sid, other]
    acceptances := jsSet (jsSet [] sid false) other false
    matchedUserData :=
      jsSet (jsSet [] sid (mkMatchedUser wuid wp now))
        other (mkMatchedUser uid p now) }

/-- The `findRandomMatch` handler (canonical variant), as one atomic step
over the server state; the external profile fetches are reads of the
`profiles` parameter (a `none` result covers both a query error and a
missing row). -/
def findRandomMatch (profiles : String → Option Profile) (now : Nat)
    (sid : String) (st : ServerState) : ServerState × List Emit :=
  match jsGet st.users sid with
  | none => (st, [])
  | some currentUserId =>
    match profiles currentUserId with
    | none =>
      (st, [errEmit sid "Your profile is incomplete. Please update your interests."])
    | some currentProfile =>
      match currentProfile.interests with
      | none =>
        (st, [errEmit sid "Your profile is incomplete. Please update your interests."])
      | some istr =>
        if istr = "" then
          (st, [errEmit sid "Your profile is incomplete. Please update your interests."])
        else
          let currentInterests := normalizeInterests (some istr)
          match claimFresh now st.waitingQueue with
          | (none, _) =>
            ({ st with waitingQueue := st.waitingQueue ++ [⟨sid, now⟩] },
             [statusEmit sid "waiting" none none
                (some "Waiting for another user to join...")])
          | (some entry, rest) =>
            let st1 := { st with waitingQueue := rest }
            let otherSocketId := entry.socketId
            match jsGet st.users otherSocketId with
            | none => (st1, [errEmit sid "Error finding matches."])
            | some waitingUserId =>
              match profiles waitingUserId with
              | none => (st1, [errEmit sid "Error finding matches."])
              | some waitingProfile =>
                let waitingInterests := normalizeInterests waitingProfile.interests
                if currentInterests.any (fun i => waitingInterests.contains i) then
                  let roomId := mkRoomId sid otherSocketId
                  let room :=
                    createdRoom sid otherSocketId currentUserId waitingUserId
                      currentProfile waitingProfile now
                  ({ st1 with randomMatches := jsSet st1.randomMatches roomId room },
                   [statusEmit sid "pending" (jsGet room.matchedUserData sid)
                      (some roomId) none,
                    statusEmit otherSocketId "pending"
                      (jsGet room.matchedUserData otherSocketId)
                      (some roomId) none])
                else
                  (st1, [errEmit sid "No compatible interests found."])

/-- The `randomMatchAccept` handler: no-op on an unknown room id; else set
the caller's acceptance flag and emit `connected` to every participant
(each with its own peer snapshot) when all participants' flags are true,
or `waiting` back to the caller alone otherwise. A flag read of a missing
key is JS `undefined`, i.e. falsy. -/
def randomMatchAccept (sid roomId : String) (st : ServerState) :
    ServerState × List Emit :=
  match jsGet st.randomMatches roomId with
  | none => (st, [])
  | some room =>
    let acc := jsSet room.acceptances sid true
    let room' : MatchRoom := { room with acceptances := acc }
    let st' := { st with randomMatches := jsSet st.randomMatches roomId room' }
    if room'.users.all (fun u => (jsGet acc u).getD false) then
      (st', room'.users.map (fun u =>
        statusEmit u "connected" (jsGet room'.matchedUserData u)
          (some roomId) none))
    else
      (st', [statusEmit sid "waiting" (jsGet room'.matchedUserData sid)
               (some roomId) none])

/-- The `randomMatchReject` handler: no-op on an unknown room id; else
broadcast `rejected` to the room channel, delete the room, and requeue
the rejecter with a fresh timestamp. -/
def randomMatchReject (now : Nat) (sid roomId : String) (st : ServerState) :
    ServerState × List Emit :=
  match jsGet st.randomMatches roomId with
  | none => (st, [])
  | some _ =>
    ({ st with randomMatches := jsRemove st.randomMatches roomId
               waitingQueue := st.waitingQueue ++ [⟨sid, now⟩] },
     [{ target := EmitTarget.room roomId
        payload := { status := "rejected", matchedUser := none,
                     roomId := some roomId, message := none } }])

/-- `findIndex(entry => entry.socketId === sid)` + `splice(idx, 1)`:
removes the first waiting entry of a connection, used by
`cancelRandomMatch` and `disconnect`. -/
def removeBySocket (sid : String) : List WaitingEntry → List WaitingEntry
  | [] => []
  | e :: rest =>
    if e.socketId = sid then rest else e :: removeBySocket sid rest

/-- The `cancelRandomMatch` handler (present in the sibling variant of
the server): drop the caller's waiting entry if any. -/
def cancelRandomMatch (sid : String) (st : ServerState) : ServerState :=
  { st with waitingQueue := removeBySocket sid st.waitingQueue }

/-- The `join` handler: `users[socket.id] = userId`. -/
def joinHandler (sid userId : String) (st : ServerState) : ServerState :=
  { st with users := jsSet st.users sid userId }

/-- The `disconnect` handler: forget the identity mapping and drop the
connection's waiting entry; rooms are not swept. -/
def disconnectHandler (sid : String) (st : ServerState) : ServerState :=
  { st with users := jsRemove st.users sid
            waitingQueue := removeBySocket sid st.waitingQueue }

/-! ### The event-level transition system -/

/-- The client events that touch the matchmaking state. -/
inductive Event where
  | join (sid userId : String)
  | findRandomMatch (now : Nat) (sid : String)
  | randomMatchAccept (sid roomId : String)
  | randomMatchReject (now : Nat) (sid roomId : String)
  | cancelRandomMatch (sid : String)
  | disconnect (sid : String)
deriving DecidableEq, Repr

/-- One event step (state part only). -/
def step (profiles : String → Option Profile) (st : ServerState) :
    Event → ServerState
  | Event.join sid uid => joinHandler sid uid st
  | Event.findRandomMatch now sid => (findRandomMatch profiles now sid st).1
  | Event.randomMatchAccept sid roomId => (randomMatchAccept sid roomId st).1
  | Event.randomMatchReject now sid roomId => (randomMatchReject now sid roomId st).1
  | Event.cancelRandomMatch sid => cancelRandomMatch sid st
  | Event.disconnect sid => disconnectHandler sid st

/-- The state after a sequence of events. -/
def run (profiles : String → Option Profile) (st : ServerState)
    (es : List Event) : ServerState :=
  es.foldl (step profiles) st

/-- The empty initial state of the process. -/
def initState : ServerState :=
  { users := [], waitingQueue := [], randomMatches := [] }

/-! ### Concrete fixtures used by witnesses and counterexamples -/

/-- A concrete profile row whose interests normalize to `[music]`. -/
def annProfile : Profile :=
  { username := some "Ann", interests := some "music", gender := none,
    location := none, date_of_birth := none, avatar_url := none }

/-- A tiny concrete profile store: `u1` and `u2` both like music. -/
def profilesAnn : String → Option Profile := fun uid =>
  if uid = "u1" || uid = "u2" then some annProfile else none

/-- A concrete pending room between sockets `a` and `b`, used by the C2
witness. -/
def roomAB : MatchRoom :=
  { users := ["a", "b"]
    acceptances := [("a", false), ("b", false)]
    matchedUserData := [] }

/-! ### Helper lemmas on the JS maps -/

theorem jsGet_jsSet_self {V : Type} (m : List (String × V)) (k : String)
    (v : V) : jsGet (jsSet m k v) k = some v := by
  induction m with
  | nil => simp [jsSet, jsGet]
  | cons hd tl ih =>
    by_cases h : hd.1 = k
    · simp [jsSet, jsGet, h]
    · simp [jsSet, jsGet, h, ih]

theorem jsGet_jsSet_ne {V : Type} (m : List (String × V)) (k k' : String)
    (v : V) (h : k ≠ k') : jsGet (jsSet m k v) k' = jsGet m k' := by
  induction m with
  | nil => simp [jsSet, jsGet, h]
  | cons hd tl ih =>
    by_cases hh : hd.1 = k
    · simp [jsSet, jsGet, hh, h]
    · simp [jsSet, jsGet, hh, ih]

theorem jsSet_of_jsGet_none {V : Type} (m : List (String × V)) (k : String)
    (v : V) (h : jsGet m k = none) : jsSet m k v = m ++ [(k, v)] := by
  induction m with
  | nil => simp [jsSet]
  | cons hd tl ih =>
    by_cases hh : hd.1 = k
    · simp [jsGet, hh] at h
    · simp [jsGet, hh] at h
      simp [jsSet, hh, ih h]

/-! ### Helper lemmas on the waiting-pool scan -/

theorem claimFresh_none (now : Nat) (pool : List WaitingEntry)
    (h : (claimFresh now pool).1 = none) :
    (claimFresh now pool).2 = pool ∧
      ∀ e ∈ pool, ¬ (now - e.timestamp < WAITING_THRESHOLD) := by
  induction pool with
  | nil => simp [claimFresh]
  | cons hd tl ih =>
    by_cases hf : now - hd.timestamp < WAITING_THRESHOLD
    · simp [claimFresh, hf] at h
    · simp only [claimFresh, if_neg hf] at h ⊢
      obtain ⟨h1, h2⟩ := ih h
      refine ⟨by rw [h1], ?_⟩
      intro e he
      rcases List.mem_cons.mp he with rfl | he
      · exact hf
      · exact h2 e he

theorem claimFresh_some (now : Nat) (pool : List WaitingEntry)
    (e : WaitingEntry) (rest : List WaitingEntry)
    (h : claimFresh now pool = (some e, rest)) :
    now - e.timestamp < WAITING_THRESHOLD ∧
      ∃ pre post, pool = pre ++ e :: post ∧ rest = pre ++ post ∧
        ∀ x ∈ pre, ¬ (now - x.timestamp < WAITING_THRESHOLD) := by
  induction pool generalizing rest with
  | nil => simp [claimFresh] at h
  | cons hd tl ih =>
    by_cases hf : now - hd.timestamp < WAITING_THRESHOLD
    · simp only [claimFresh, if_pos hf, Prod.mk.injEq, Option.some.injEq] at h
      obtain ⟨rfl, rfl⟩ := h
      exact ⟨hf, [], tl, rfl, rfl, by simp⟩
    · simp only [claimFresh, if_neg hf, Prod.mk.injEq] at h
      obtain ⟨h1, h2⟩ := h
      obtain ⟨hfr, pre, post, hpool, hrest, hpre⟩ :=
        ih (claimFresh now tl).2 (by rw [← h1])
      refine ⟨hfr, hd :: pre, post, by rw [hpool]; rfl, ?_, ?_⟩
      · rw [← h2, hrest]; rfl
      · intro x hx
        rcases List.mem_cons.mp hx with rfl | hx
        · exact hf
        · exact hpre x hx

theorem claimFresh_stale_mem (now : Nat) (pool : List WaitingEntry)
    (e : WaitingEntry) (he : e ∈ pool)
    (hs : ¬ (now - e.timestamp < WAITING_THRESHOLD)) :
    e ∈ (claimFresh now pool).2 := by
  induction pool with
  | nil => simp at he
  | cons hd tl ih =>
    by_cases hf : now - hd.timestamp < WAITING_THRESHOLD
    · simp only [claimFresh, if_pos hf]
      rcases List.mem_cons.mp he with rfl | he
      · exact absurd hf hs
      · exact he
    · simp only [claimFresh, if_neg hf]
      rcases List.mem_cons.mp he with rfl | he
      · exact List.mem_cons_self _ _
      · exact List.mem_cons_of_mem _ (ih he)

theorem removeBySocket_mem_of_ne (sid : String) (pool : List WaitingEntry)
    (e : WaitingEntry) (he : e ∈ pool) (hne : e.socketId ≠ sid) :
    e ∈ removeBySocket sid pool := by
  induction pool with
  | nil => simp at he
  | cons hd tl ih =>
    by_cases hh : hd.socketId = sid
    · simp only [removeBySocket, if_pos hh]
      rcases List.mem_cons.mp he with rfl | he
      · exact absurd hh hne
      · exact he
    · simp only [removeBySocket, if_neg hh]
      rcases List.mem_cons.mp he with rfl | he
      · exact List.mem_cons_self _ _
      · exact List.mem_cons_of_mem _ (ih he)

/-! ### Branch characterizations of `findRandomMatch` -/

theorem findRandomMatch_success_eq (profiles : String → Option Profile)
    (now : Nat) (sid : String) (st : ServerState) (uid : String)
    (p : Profile) (istr : String) (entry : WaitingEntry)
    (rest : List WaitingEntry) (wuid : String) (wp : Profile)
    (hu : jsGet st.users sid = some uid)
    (hp : profiles uid = some p)
    (hi : p.interests = some istr)
    (hs : istr ≠ "")
    (hclaim : claimFresh now st.waitingQueue = (some entry, rest))
    (hwu : jsGet st.users entry.socketId = some wuid)
    (hwp : profiles wuid = some wp)
    (hmut : (normalizeInterests (some istr)).any
      (fun i => (normalizeInterests wp.interests).contains i) = true) :
    findRandomMatch profiles now sid st =
      ({ st with waitingQueue := rest
                 randomMatches := jsSet st.randomMatches
                   (mkRoomId sid entry.socketId)
                   (createdRoom sid entry.socketId uid wuid p wp now) },
       [statusEmit sid "pending"
          (jsGet (createdRoom sid entry.socketId uid wuid p wp now).matchedUserData sid)
          (some (mkRoomId sid entry.socketId)) none,
        statusEmit entry.socketId "pending"
          (jsGet (createdRoom sid entry.socketId uid wuid p wp now).matchedUserData
            entry.socketId)
          (some (mkRoomId sid entry.socketId)) none]) := by
  unfold findRandomMatch
  simp only [hu, hp, hi, if_neg hs, hclaim, hwu, hwp, hmut, if_true]

theorem findRandomMatch_partnerLookup_fail_eq (profiles : String → Option Profile)
    (now : Nat) (sid : String) (st : ServerState) (uid : String)
    (p : Profile) (istr : String) (entry : WaitingEntry)
    (rest : List WaitingEntry)
    (hu : jsGet st.users sid = some uid)
    (hp : profiles uid = some p)
    (hi : p.interests = some istr)
    (hs : istr ≠ "")
    (hclaim : claimFresh now st.waitingQueue = (some entry, rest))
    (hfail : jsGet st.users entry.socketId = none ∨
      ∃ wuid, jsGet st.users entry.socketId = some wuid ∧ profiles wuid = none) :
    findRandomMatch profiles now sid st =
      ({ st with waitingQueue := rest }, [errEmit sid "Error finding matches."]) := by
  unfold findRandomMatch
  rcases hfail with hwu | ⟨wuid, hwu, hwp⟩
  · simp only [hu, hp, hi, if_neg hs, hclaim, hwu]
  · simp only [hu, hp, hi, if_neg hs, hclaim, hwu, hwp]

theorem findRandomMatch_noMutual_eq (profiles : String → Option Profile)
    (now : Nat) (sid : String) (st : ServerState) (uid : String)
    (p : Profile) (istr : String) (entry : WaitingEntry)
    (rest : List WaitingEntry) (wuid : String) (wp : Profile)
    (hu : jsGet st.users sid = some uid)
    (hp : profiles uid = some p)
    (hi : p.interests = some istr)
    (hs : istr ≠ "")
    (hclaim : claimFresh now st.waitingQueue = (some entry, rest))
    (hwu : jsGet st.users entry.socketId = some wuid)
    (hwp : profiles wuid = some wp)
    (hmut : (normalizeInterests (some istr)).any
      (fun i => (normalizeInterests wp.interests).contains i) = false) :
    findRandomMatch profiles now sid st =
      ({ st with waitingQueue := rest },
       [errEmit sid "No compatible interests found."]) := by
  unfold findRandomMatch
  simp only [hu, hp, hi, if_neg hs, hclaim, hwu, hwp, hmut, if_false,
    Bool.false_eq_true]

/-! ### Claim theorems -/

theorem jsStrLtChars_asymm : ∀ xs ys : List Char,
    jsStrLtChars xs ys = true → jsStrLtChars ys xs = false := by
  intro xs
  induction xs with
  | nil =>
    intro ys h
    cases ys with
    | nil => simp [jsStrLtChars] at h
    | cons b bs => rfl
  | cons a as ih =>
    intro ys h
    cases ys with
    | nil => simp [jsStrLtChars] at h
    | cons b bs =>
      by_cases h1 : a.toNat < b.toNat
      · simp only [jsStrLtChars]
        rw [if_neg (by omega), if_pos h1]
      · by_cases h2 : b.toNat < a.toNat
        · simp only [jsStrLtChars, if_neg h1, if_pos h2] at h
          exact absurd h (by decide)
        · simp only [jsStrLtChars, if_neg h1, if_neg h2] at h ⊢
          exact ih bs h

theorem jsStrLtChars_eq_of_not_lt : ∀ xs ys : List Char,
    jsStrLtChars xs ys = false → jsStrLtChars ys xs = false → xs = ys := by
  intro xs
  induction xs with
  | nil =>
    intro ys h1 _
    cases ys with
    | nil => rfl
    | cons b bs => simp [jsStrLtChars] at h1
  | cons a as ih =>
    intro ys h1 h2
    cases ys with
    | nil => simp [jsStrLtChars] at h2
    | cons b bs =>
      by_cases ha : a.toNat < b.toNat
      · simp only [jsStrLtChars, if_pos ha] at h1
        exact absurd h1 (by decide)
      · by_cases hb : b.toNat < a.toNat
        · simp only [jsStrLtChars, if_pos hb] at h2
          exact absurd h2 (by decide)
        · have hab : a = b := Char.ofNat_toNat a ▸ Char.ofNat_toNat b ▸
            congrArg Char.ofNat (by omega)
          have h1' : jsStrLtChars as bs = false := by
            simpa only [jsStrLtChars, if_neg ha, if_neg hb] using h1
          have h2' : jsStrLtChars bs as = false := by
            simpa only [jsStrLtChars, if_neg hb, if_neg ha] using h2
          rw [hab, ih bs h1' h2']

/-- **C4.** Room-id derivation is symmetric: the room id built when `X`
initiates pairing with `Y` equals the one built when `Y` initiates with
`X`, because the pair is sorted before concatenation. -/
theorem mkRoomId_symmetric (a b : String) : mkRoomId a b = mkRoomId b a := by
  unfold mkRoomId
  by_cases h : jsStrLt b a = true
  · rw [if_pos h, if_neg (by simp [jsStrLt, jsStrLtChars_asymm _ _ h])]
  · have h' : jsStrLt b a = false := by
      rcases Bool.eq_false_or_eq_true (jsStrLt b a) with hh | hh
      · exact absurd hh h
      · exact hh
    by_cases h2 : jsStrLt a b = true
    · rw [if_neg h, if_pos h2]
    · have h2' : jsStrLt a b = false := by
        rcases Bool.eq_false_or_eq_true (jsStrLt a b) with hh | hh
        · exact absurd hh h2
        · exact hh
      have : a.data = b.data :=
        jsStrLtChars_eq_of_not_lt a.data b.data h2' h'
      have hab : a = b := by
        cases a; cases b
        simp only at this
        rw [this]
      rw [hab]

/-- **C5.** `normalizeInterests` is a pure total function of its input:
`null` and the empty string normalize to the empty set,
`"Music, Travel;Art"` normalizes to exactly `[music, travel, art]`, and
every produced token is non-empty (empty pieces are dropped), on every
input. -/
theorem normalizeInterests_spec :
    normalizeInterests none = [] ∧
    normalizeInterests (some "") = [] ∧
    normalizeInterests (some "Music, Travel;Art") = ["music", "travel", "art"] ∧
    ∀ s t, t ∈ normalizeInterests s → t ≠ "" := by
  refine ⟨rfl, by decide, by decide, ?_⟩
  intro s t ht
  cases s with
  | none => simp [normalizeInterests] at ht
  | some s =>
    by_cases hs : s = ""
    · simp [normalizeInterests, hs] at ht
    · simp only [normalizeInterests, if_neg hs, List.mem_map, List.mem_filter] at ht
      obtain ⟨cs, ⟨_, hlen⟩, rfl⟩ := ht
      intro hcontra
      have : cs = [] := congrArg String.data hcontra
      rw [this] at hlen
      simp at hlen

/-- Witness for C5: the general non-emptiness clause applied at the
concrete input `"Music"`. -/
theorem normalizeInterests_spec_witness :
    "music" ∈ normalizeInterests (some "Music") ∧ ("music" : String) ≠ "" :=
  ⟨by decide, normalizeInterests_spec.2.2.2 (some "Music") "music" (by decide)⟩

/-- **C1.** The partner scan (`findIndex` + `splice` over the waiting
pool, `claimFresh`): when it returns an entry, that entry is fresh
(`now - enqueuedAt < 15000`), it is the front-most fresh entry (every
entry before it is stale), and the scan removes exactly that occurrence
from the pool in the same step; a stale entry — in particular one
enqueued 15000 ms or more before `now` — is never the returned one; and
when no fresh entry exists, the scan returns `none` and leaves the pool
unchanged. -/
theorem claimFresh_spec (now : Nat) (pool : List WaitingEntry) :
    (∀ e rest, claimFresh now pool = (some e, rest) →
      now - e.timestamp < WAITING_THRESHOLD ∧
        ∃ pre post, pool = pre ++ e :: post ∧ rest = pre ++ post ∧
          ∀ x ∈ pre, ¬ (now - x.timestamp < WAITING_THRESHOLD)) ∧
    (∀ e ∈ pool, WAITING_THRESHOLD ≤ now - e.timestamp →
      (claimFresh now pool).1 ≠ some e) ∧
    ((claimFresh now pool).1 = none →
      (claimFresh now pool).2 = pool ∧
        ∀ e ∈ pool, ¬ (now - e.timestamp < WAITING_THRESHOLD)) := by
  refine ⟨fun e rest h => claimFresh_some now pool e rest h, ?_,
    fun h => claimFresh_none now pool h⟩
  intro e _ hstale hclaim
  obtain ⟨hfresh, _⟩ :=
    claimFresh_some now pool e (claimFresh now pool).2
      (by rw [← hclaim])
  exact absurd hfresh (not_lt.mpr hstale)

/-- Witness for C1: an entry enqueued at `t0 = 0` is not claimable at
`t0 + 16000` (and the pool is unchanged there), while at `t0 + 1000` the
scan claims exactly that entry. -/
theorem claimFresh_spec_witness :
    (claimFresh 16000 [WaitingEntry.mk "a" 0]).1 ≠ some (WaitingEntry.mk "a" 0) ∧
    (claimFresh 16000 [WaitingEntry.mk "a" 0]).2 = [WaitingEntry.mk "a" 0] ∧
    1000 - (WaitingEntry.mk "a" 0).timestamp < WAITING_THRESHOLD :=
  ⟨(claimFresh_spec 16000 [WaitingEntry.mk "a" 0]).2.1 (WaitingEntry.mk "a" 0)
      (by decide) (by decide),
   ((claimFresh_spec 16000 [WaitingEntry.mk "a" 0]).2.2 (by decide)).1,
   ((claimFresh_spec 1000 [WaitingEntry.mk "a" 0]).1 (WaitingEntry.mk "a" 0) []
      (by decide)).1⟩

/-- **C6, counterexample.** A reachable state in which one connection
holds two waiting-pool entries: `s1` enqueues at `t = 0`; at
`t = 16000` its own entry is stale, so a second `findRandomMatch`
enqueues `s1` again without removing the old entry. -/
theorem waitingPool_duplicate_counterexample :
    (run profilesAnn initState
        [Event.join "s1" "u1", Event.findRandomMatch 0 "s1",
         Event.findRandomMatch 16000 "s1"]).waitingQueue =
      [WaitingEntry.mk "s1" 0, WaitingEntry.mk "s1" 16000] ∧
    ¬ ((run profilesAnn initState
        [Event.join "s1" "u1", Event.findRandomMatch 0 "s1",
         Event.findRandomMatch 16000 "s1"]).waitingQueue.countP
          (fun e => e.socketId = "s1") ≤ 1) := by
  constructor
  · decide
  · decide

/-- **C6, amended.** `findRandomMatch` enqueues the requester (growing
the waiting pool) only when every entry already in the pool is stale at
`now`; so a duplicate entry for a connection can arise through
`findRandomMatch` only once the connection's earlier entries have gone
stale (and through `randomMatchReject`, which requeues unconditionally). -/
theorem findRandomMatch_enqueue_only_if_all_stale
    (profiles : String → Option Profile) (now : Nat) (sid : String)
    (st : ServerState)
    (hgrow : st.waitingQueue.length <
      ((findRandomMatch profiles now sid st).1).waitingQueue.length) :
    ∀ e ∈ st.waitingQueue, ¬ (now - e.timestamp < WAITING_THRESHOLD) := by
  unfold findRandomMatch at hgrow
  intro e he
  rcases hu : jsGet st.users sid with _ | uid
  · simp only [hu] at hgrow; simp at hgrow
  · simp only [hu] at hgrow
    rcases hp : profiles uid with _ | p
    · simp only [hp] at hgrow; simp at hgrow
    · simp only [hp] at hgrow
      rcases hi : p.interests with _ | istr
      · simp only [hi] at hgrow; simp at hgrow
      · simp only [hi] at hgrow
        by_cases hs : istr = ""
        · rw [if_pos hs] at hgrow; simp at hgrow
        · rw [if_neg hs] at hgrow
          rcases hclaim : claimFresh now st.waitingQueue with ⟨r, rest⟩
          rcases r with _ | entry
          · exact (claimFresh_none now st.waitingQueue
              (by rw [hclaim])).2 e he
          · simp only [hclaim] at hgrow
            obtain ⟨_, pre, post, hpool, hrest, _⟩ :=
              claimFresh_some now st.waitingQueue entry rest hclaim
            have hlen : rest.length < st.waitingQueue.length := by
              rw [hpool, hrest]
              simp
            rcases hwu : jsGet st.users entry.socketId with _ | wuid
            · simp only [hwu] at hgrow
              omega
            · simp only [hwu] at hgrow
              rcases hwp : profiles wuid with _ | wp
              · simp only [hwp] at hgrow
                omega
              · simp only [hwp] at hgrow
                by_cases hmut : (normalizeInterests (some istr)).any
                    (fun i => (normalizeInterests wp.interests).contains i)
                · simp only [if_pos hmut] at hgrow
                  omega
                · simp only [if_neg hmut] at hgrow
                  omega

/-- Witness for the amended C6: from a pool holding only the stale entry
`(s1, 0)`, a request by `s2` at `t = 16000` grows the pool, and the
theorem yields that the old entry was indeed stale. -/
theorem findRandomMatch_enqueue_only_if_all_stale_witness :
    ¬ ((16000 : Nat) - (WaitingEntry.mk "s1" 0).timestamp < WAITING_THRESHOLD) :=
  findRandomMatch_enqueue_only_if_all_stale profilesAnn 16000 "s2"
    { users := [("s1", "u1"), ("s2", "u2")],
      waitingQueue := [WaitingEntry.mk "s1" 0], randomMatches := [] }
    (by decide) (WaitingEntry.mk "s1" 0) (by decide)

/-- **C8, counterexample.** The partner scan does not remove the expired
entries it passes over: `s1`'s entry (enqueued at 0) is expired at
`t = 16000`; `s2`'s scan skips it and enqueues `s2`, and the expired
entry is still in the pool afterwards. -/
theorem staleEntry_survives_scan_counterexample :
    WaitingEntry.mk "s1" 0 ∈
      (run profilesAnn initState
        [Event.join "s1" "u1", Event.findRandomMatch 0 "s1",
         Event.join "s2" "u2", Event.findRandomMatch 16000 "s2"]).waitingQueue ∧
    WAITING_THRESHOLD ≤ 16000 - (WaitingEntry.mk "s1" 0).timestamp := by
  constructor
  · decide
  · decide

/-- **C8, amended.** Expired waiting entries are never removed by the
partner scan: the scan skips them, removing only the fresh entry it
claims, so an expired entry survives every `findRandomMatch` step; it
leaves the pool only through that connection's `cancelRandomMatch` or
`disconnect` (and those removals touch no other connection's entries). -/
theorem staleEntry_removal_spec (profiles : String → Option Profile)
    (now : Nat) (sid : String) (st : ServerState) (e : WaitingEntry)
    (he : e ∈ st.waitingQueue)
    (hstale : WAITING_THRESHOLD ≤ now - e.timestamp) :
    e ∈ ((findRandomMatch profiles now sid st).1).waitingQueue ∧
    (e.socketId ≠ sid →
      e ∈ (cancelRandomMatch sid st).waitingQueue ∧
      e ∈ (disconnectHandler sid st).waitingQueue) := by
  have hstale' : ¬ (now - e.timestamp < WAITING_THRESHOLD) := not_lt.mpr hstale
  constructor
  · unfold findRandomMatch
    rcases hu : jsGet st.users sid with _ | uid
    · simp only [hu]; exact he
    · simp only [hu]
      rcases hp : profiles uid with _ | p
      · simp only [hp]; exact he
      · simp only [hp]
        rcases hi : p.interests with _ | istr
        · simp only [hi]; exact he
        · simp only [hi]
          by_cases hs : istr = ""
          · rw [if_pos hs]; exact he
          · rw [if_neg hs]
            rcases hclaim : claimFresh now st.waitingQueue with ⟨r, rest⟩
            have hmem : e ∈ rest := by
              have := claimFresh_stale_mem now st.waitingQueue e he hstale'
              rw [hclaim] at this
              exact this
            rcases r with _ | entry
            · simp only [hclaim]
              exact List.mem_append_left _ he
            · simp only [hclaim]
              rcases hwu : jsGet st.users entry.socketId with _ | wuid
              · simp only [hwu]; exact hmem
              · simp only [hwu]
                rcases hwp : profiles wuid with _ | wp
                · simp only [hwp]; exact hmem
                · simp only [hwp]
                  by_cases hmut : (normalizeInterests (some istr)).any
                      (fun i => (normalizeInterests wp.interests).contains i)
                  · simp only [if_pos hmut]; exact hmem
                  · simp only [if_neg hmut]; exact hmem
  · intro hne
    exact ⟨removeBySocket_mem_of_ne sid st.waitingQueue e he hne,
      removeBySocket_mem_of_ne sid st.waitingQueue e he hne⟩

theorem any_contains_iff (A B : List String) :
    (A.any fun i => B.contains i) = true ↔ ∃ i ∈ A, i ∈ B := by
  simp [List.any_eq_true]

/-- **C3.** Once the requester's and the claimed partner's profiles are
both fetched, the pairing succeeds — the match room is stored and a
`pending` status is emitted to both sides — if and only if the two
normalized interest lists intersect; on an empty intersection the
requester gets an `error` status and no room is created (the session
directory is left unchanged). -/
theorem mutualInterest_spec (profiles : String → Option Profile)
    (now : Nat) (sid : String) (st : ServerState) (uid : String)
    (p : Profile) (istr : String) (entry : WaitingEntry)
    (rest : List WaitingEntry) (wuid : String) (wp : Profile)
    (hu : jsGet st.users sid = some uid)
    (hp : profiles uid = some p)
    (hi : p.interests = some istr)
    (hs : istr ≠ "")
    (hclaim : claimFresh now st.waitingQueue = (some entry, rest))
    (hwu : jsGet st.users entry.socketId = some wuid)
    (hwp : profiles wuid = some wp) :
    ((∃ i ∈ normalizeInterests (some istr),
        i ∈ normalizeInterests wp.interests) →
      findRandomMatch profiles now sid st =
        ({ st with waitingQueue := rest
                   randomMatches := jsSet st.randomMatches
                     (mkRoomId sid entry.socketId)
                     (createdRoom sid entry.socketId uid wuid p wp now) },
         [statusEmit sid "pending"
            (jsGet (createdRoom sid entry.socketId uid wuid p wp now).matchedUserData sid)
            (some (mkRoomId sid entry.socketId)) none,
          statusEmit entry.socketId "pending"
            (jsGet (createdRoom sid entry.socketId uid wuid p wp now).matchedUserData
              entry.socketId)
            (some (mkRoomId sid entry.socketId)) none])) ∧
    ((¬ ∃ i ∈ normalizeInterests (some istr),
        i ∈ normalizeInterests wp.interests) →
      findRandomMatch profiles now sid st =
        ({ st with waitingQueue := rest },
         [errEmit sid "No compatible interests found."]) ∧
      ((findRandomMatch profiles now sid st).1).randomMatches =
        st.randomMatches) ∧
    (((findRandomMatch profiles now sid st).2.map
        (fun em => em.payload.status)) = ["pending", "pending"] ↔
      ∃ i ∈ normalizeInterests (some istr),
        i ∈ normalizeInterests wp.interests) := by
  by_cases hmut : ∃ i ∈ normalizeInterests (some istr),
      i ∈ normalizeInterests wp.interests
  · have hb : (normalizeInterests (some istr)).any
        (fun i => (normalizeInterests wp.interests).contains i) = true :=
      (any_contains_iff _ _).mpr hmut
    have heq := findRandomMatch_success_eq profiles now sid st uid p istr
      entry rest wuid wp hu hp hi hs hclaim hwu hwp hb
    refine ⟨fun _ => heq, fun hcontra => absurd hmut hcontra, ?_⟩
    rw [heq]
    simp only [statusEmit, List.map_cons, List.map_nil]
    exact ⟨fun _ => hmut, fun _ => trivial⟩
  · have hb : (normalizeInterests (some istr)).any
        (fun i => (normalizeInterests wp.interests).contains i) = false := by
      rcases Bool.eq_false_or_eq_true ((normalizeInterests (some istr)).any
        (fun i => (normalizeInterests wp.interests).contains i)) with h | h
      · exact absurd ((any_contains_iff _ _).mp h) hmut
      · exact h
    have heq := findRandomMatch_noMutual_eq profiles now sid st uid p istr
      entry rest wuid wp hu hp hi hs hclaim hwu hwp hb
    refine ⟨fun hcontra => absurd hcontra hmut,
      fun _ => ⟨heq, by rw [heq]⟩, ?_⟩
    rw [heq]
    simp only [errEmit, statusEmit, List.map_cons, List.map_nil]
    constructor
    · intro h
      exact absurd h (by simp)
    · intro h
      exact absurd h hmut

/-- Witness for C3: with profiles `u1`, `u2` both interested in music,
`s2`'s request at `t = 1` pairs with waiting `s1` and both `pending`
statuses are emitted. -/
theorem mutualInterest_spec_witness :
    ((findRandomMatch profilesAnn 1 "s2"
        { users := [("s1", "u1"), ("s2", "u2")],
          waitingQueue := [WaitingEntry.mk "s1" 0],
          randomMatches := [] }).2.map (fun em => em.payload.status)) =
      ["pending", "pending"] :=
  ((mutualInterest_spec profilesAnn 1 "s2"
      { users := [("s1", "u1"), ("s2", "u2")],
        waitingQueue := [WaitingEntry.mk "s1" 0], randomMatches := [] }
      "u2"
      { username := some "Ann", interests := some "music", gender := none,
        location := none, date_of_birth := none, avatar_url := none }
      "music" (WaitingEntry.mk "s1" 0) [] "u1"
      { username := some "Ann", interests := some "music", gender := none,
        location := none, date_of_birth := none, avatar_url := none }
      (by decide) (by decide) (by decide) (by decide) (by decide)
      (by decide) (by decide)).2.2).mpr
    ⟨"music", by decide, by decide⟩

theorem randomMatchAccept_all_eq (sid roomId : String) (st : ServerState)
    (room : MatchRoom) (hroom : jsGet st.randomMatches roomId = some room)
    (hall : room.users.all
      (fun u => (jsGet (jsSet room.acceptances sid true) u).getD false) = true) :
    randomMatchAccept sid roomId st =
      ({ st with randomMatches :=
                   jsSet st.randomMatches roomId
                     { room with acceptances := jsSet room.acceptances sid true } },
       room.users.map (fun u =>
         statusEmit u "connected" (jsGet room.matchedUserData u)
           (some roomId) none)) := by
  unfold randomMatchAccept
  simp only [hroom, hall, if_true]

theorem randomMatchAccept_notAll_eq (sid roomId : String) (st : ServerState)
    (room : MatchRoom) (hroom : jsGet st.randomMatches roomId = some room)
    (hall : room.users.all
      (fun u => (jsGet (jsSet room.acceptances sid true) u).getD false) = false) :
    randomMatchAccept sid roomId st =
      ({ st with randomMatches :=
                   jsSet st.randomMatches roomId
                     { room with acceptances := jsSet room.acceptances sid true } },
       [statusEmit sid "waiting" (jsGet room.matchedUserData sid)
          (some roomId) none]) := by
  unfold randomMatchAccept
  simp only [hroom, hall, Bool.false_eq_true, if_false]

/-- **C2.** `randomMatchAccept` is a silent no-op on an unknown room id;
otherwise it sets the caller's acceptance flag to true while the room
stays in the session directory, and then emits `connected` to both
participants — each with its own peer snapshot — when both flags are
true, or a `waiting` status to the accepting connection alone (with its
own peer snapshot) when only one is; a further accept on a fully
accepted room takes the same connected branch and never errors. -/
theorem randomMatchAccept_spec (sid roomId : String) (st : ServerState) :
    (jsGet st.randomMatches roomId = none →
      randomMatchAccept sid roomId st = (st, [])) ∧
    (∀ room a b, jsGet st.randomMatches roomId = some room →
      room.users = [a, b] →
      jsGet ((randomMatchAccept sid roomId st).1).randomMatches roomId =
        some { room with acceptances := jsSet room.acceptances sid true } ∧
      jsGet (jsSet room.acceptances sid true) sid = some true ∧
      ((jsGet (jsSet room.acceptances sid true) a).getD false = true →
        (jsGet (jsSet room.acceptances sid true) b).getD false = true →
        (randomMatchAccept sid roomId st).2 =
          [statusEmit a "connected" (jsGet room.matchedUserData a)
             (some roomId) none,
           statusEmit b "connected" (jsGet room.matchedUserData b)
             (some roomId) none]) ∧
      (¬ ((jsGet (jsSet room.acceptances sid true) a).getD false = true ∧
          (jsGet (jsSet room.acceptances sid true) b).getD false = true) →
        (randomMatchAccept sid roomId st).2 =
          [statusEmit sid "waiting" (jsGet room.matchedUserData sid)
             (some roomId) none])) := by
  refine ⟨?_, ?_⟩
  · intro h
    unfold randomMatchAccept
    simp only [h]
  · intro room a b hroom husers
    by_cases hall : room.users.all
        (fun u => (jsGet (jsSet room.acceptances sid true) u).getD false) = true
    · have heq := randomMatchAccept_all_eq sid roomId st room hroom hall
      rw [husers] at hall
      simp only [List.all_cons, List.all_nil, Bool.and_true,
        Bool.and_eq_true] at hall
      refine ⟨?_, jsGet_jsSet_self _ _ _, fun _ _ => ?_, fun hcontra => ?_⟩
      · rw [heq]
        exact jsGet_jsSet_self _ _ _
      · rw [heq, husers]
        simp
      · exact absurd hall hcontra
    · have hall' : room.users.all
          (fun u => (jsGet (jsSet room.acceptances sid true) u).getD false) = false := by
        rcases Bool.eq_false_or_eq_true (room.users.all
          (fun u => (jsGet (jsSet room.acceptances sid true) u).getD false)) with h | h
        · exact absurd h hall
        · exact h
      have heq := randomMatchAccept_notAll_eq sid roomId st room hroom hall'
      rw [husers] at hall
      simp only [List.all_cons, List.all_nil, Bool.and_true,
        Bool.and_eq_true] at hall
      refine ⟨?_, jsGet_jsSet_self _ _ _, fun ha hb => absurd ⟨ha, hb⟩ hall,
        fun _ => ?_⟩
      · rw [heq]
        exact jsGet_jsSet_self _ _ _
      · rw [heq]

theorem randomMatchAccept_state_eq (sid roomId : String) (st : ServerState)
    (room : MatchRoom) (hroom : jsGet st.randomMatches roomId = some room) :
    ((randomMatchAccept sid roomId st).1) =
      { st with randomMatches :=
                  jsSet st.randomMatches roomId
                    { room with acceptances := jsSet room.acceptances sid true } } := by
  by_cases hall : room.users.all
      (fun u => (jsGet (jsSet room.acceptances sid true) u).getD false) = true
  · rw [randomMatchAccept_all_eq sid roomId st room hroom hall]
  · have hall' : room.users.all
        (fun u => (jsGet (jsSet room.acceptances sid true) u).getD false) = false := by
      rcases Bool.eq_false_or_eq_true (room.users.all
        (fun u => (jsGet (jsSet room.acceptances sid true) u).getD false)) with h | h
      · exact absurd h hall
      · exact h
    rw [randomMatchAccept_notAll_eq sid roomId st room hroom hall']

/-- **C7, counterexample.** A reachable state whose room acceptance map
does not have exactly the two participant keys: after `s2` pairs with
`s1`, a `randomMatchAccept` sent by the unrelated socket `s3` with the
valid room id adds the key `s3` to the acceptance map. -/
theorem acceptance_extraKey_counterexample :
    ((jsGet (run profilesAnn initState
        [Event.join "s1" "u1", Event.join "s2" "u2",
         Event.findRandomMatch 0 "s1", Event.findRandomMatch 1 "s2",
         Event.randomMatchAccept "s3" "random-s1-s2"]).randomMatches
        "random-s1-s2").map
      (fun r => (r.users, r.acceptances.map Prod.fst))) =
      some (["s2", "s1"], ["s2", "s1", "s3"]) ∧
    "s3" ∉ ["s2", "s1"] := by
  constructor
  · decide
  · decide

/-- **C7, amended.** When a room is created for two distinct sockets its
acceptance map has exactly the two participant keys, both false; but
`randomMatchAccept` writes the flag for whichever socket sends the
event without a membership check: it sets the caller's key to true,
leaves every other key unchanged, and — when the caller is not already a
key — appends a brand-new key, so a non-participant accept violates the
two-keys invariant. -/
theorem acceptance_keys_spec (profiles : String → Option Profile)
    (now : Nat) (sid : String) (st : ServerState) (uid : String)
    (p : Profile) (istr : String) (entry : WaitingEntry)
    (rest : List WaitingEntry) (wuid : String) (wp : Profile)
    (hu : jsGet st.users sid = some uid)
    (hp : profiles uid = some p)
    (hi : p.interests = some istr)
    (hs : istr ≠ "")
    (hclaim : claimFresh now st.waitingQueue = (some entry, rest))
    (hwu : jsGet st.users entry.socketId = some wuid)
    (hwp : profiles wuid = some wp)
    (hmut : (normalizeInterests (some istr)).any
      (fun i => (normalizeInterests wp.interests).contains i) = true)
    (hdistinct : sid ≠ entry.socketId) :
    (jsGet ((findRandomMatch profiles now sid st).1).randomMatches
        (mkRoomId sid entry.socketId) =
      some (createdRoom sid entry.socketId uid wuid p wp now) ∧
     (createdRoom sid entry.socketId uid wuid p wp now).users =
       [sid, entry.socketId] ∧
     (createdRoom sid entry.socketId uid wuid p wp now).acceptances =
       [(sid, false), (entry.socketId, false)]) ∧
    (∀ sid' roomId' st' room',
      jsGet st'.randomMatches roomId' = some room' →
      jsGet ((randomMatchAccept sid' roomId' st').1).randomMatches roomId' =
        some { room' with acceptances := jsSet room'.acceptances sid' true } ∧
      room'.users = ({ room' with
        acceptances := jsSet room'.acceptances sid' true } : MatchRoom).users ∧
      jsGet (jsSet room'.acceptances sid' true) sid' = some true ∧
      (∀ k, k ≠ sid' →
        jsGet (jsSet room'.acceptances sid' true) k =
          jsGet room'.acceptances k) ∧
      (jsGet room'.acceptances sid' = none →
        (jsSet room'.acceptances sid' true).map Prod.fst =
          room'.acceptances.map Prod.fst ++ [sid'])) := by
  constructor
  · have heq := findRandomMatch_success_eq profiles now sid st uid p istr
      entry rest wuid wp hu hp hi hs hclaim hwu hwp hmut
    refine ⟨?_, rfl, ?_⟩
    · rw [heq]
      exact jsGet_jsSet_self _ _ _
    · simp only [createdRoom, jsSet, if_neg hdistinct]
  · intro sid' roomId' st' room' hroom
    refine ⟨?_, rfl, jsGet_jsSet_self _ _ _, ?_, ?_⟩
    · rw [randomMatchAccept_state_eq sid' roomId' st' room' hroom]
      exact jsGet_jsSet_self _ _ _
    · intro k hk
      exact jsGet_jsSet_ne _ _ _ _ (fun h => hk h.symm)
    · intro hnone
      rw [jsSet_of_jsGet_none _ _ _ hnone, List.map_append]
      rfl

/-- Witness for the amended C7: `s2` pairs with waiting `s1` (distinct
sockets) and the created acceptance map is exactly the two participant
keys set to false; an accept by the non-key `s3` then appends the key
`s3`. -/
theorem acceptance_keys_spec_witness :
    (createdRoom "s2" "s1" "u2" "u1" annProfile annProfile 1).acceptances =
      [("s2", false), ("s1", false)] ∧
    (jsSet roomAB.acceptances "s3" true).map Prod.fst =
      roomAB.acceptances.map Prod.fst ++ ["s3"] := by
  have h := acceptance_keys_spec profilesAnn 1 "s2"
    { users := [("s1", "u1"), ("s2", "u2")],
      waitingQueue := [WaitingEntry.mk "s1" 0], randomMatches := [] }
    "u2" annProfile "music" (WaitingEntry.mk "s1" 0) [] "u1" annProfile
    (by decide) (by decide) (by decide) (by decide) (by decide)
    (by decide) (by decide) (by decide) (by decide)
  refine ⟨h.1.2.2, ?_⟩
  exact ((h.2 "s3" "r"
    { users := [], waitingQueue := [], randomMatches := [("r", roomAB)] }
    roomAB (by decide)).2.2.2.2 (by decide))

/-- Witness for C2: in a room where nobody has accepted yet, an accept by
`a` emits the self-only `waiting` status. -/
theorem randomMatchAccept_spec_witness :
    (randomMatchAccept "a" "r"
      { users := [], waitingQueue := [],
        randomMatches := [("r", roomAB)] }).2 =
      [statusEmit "a" "waiting" (jsGet roomAB.matchedUserData "a")
         (some "r") none] :=
  ((randomMatchAccept_spec "a" "r"
      { users := [], waitingQueue := [],
        randomMatches := [("r", roomAB)] }).2 roomAB "a" "b"
    (by decide) (by decide)).2.2.2 (by decide)

/-- **C9.** When a waiting partner has been claimed but its identity or
profile cannot be resolved, `findRandomMatch` emits
`"Error finding matches."` to the requester and stops with the claimed
entry already removed: if the partner held a single pool entry and sat
in no room beforehand, afterwards it is in neither the waiting pool nor
any room — the pool is not restored on this error path. -/
theorem partnerNotRequeued_spec (profiles : String → Option Profile)
    (now : Nat) (sid : String) (st : ServerState) (uid : String)
    (p : Profile) (istr : String) (entry : WaitingEntry)
    (rest : List WaitingEntry)
    (hu : jsGet st.users sid = some uid)
    (hp : profiles uid = some p)
    (hi : p.interests = some istr)
    (hs : istr ≠ "")
    (hclaim : claimFresh now st.waitingQueue = (some entry, rest))
    (hfail : jsGet st.users entry.socketId = none ∨
      ∃ wuid, jsGet st.users entry.socketId = some wuid ∧ profiles wuid = none)
    (hcount : st.waitingQueue.countP
      (fun e => e.socketId = entry.socketId) ≤ 1)
    (hrooms : ∀ rid room, jsGet st.randomMatches rid = some room →
      entry.socketId ∉ room.users) :
    findRandomMatch profiles now sid st =
      ({ st with waitingQueue := rest }, [errEmit sid "Error finding matches."]) ∧
    rest.countP (fun e => e.socketId = entry.socketId) = 0 ∧
    ∀ rid room,
      jsGet ((findRandomMatch profiles now sid st).1).randomMatches rid =
        some room → entry.socketId ∉ room.users := by
  have heq := findRandomMatch_partnerLookup_fail_eq profiles now sid st uid p
    istr entry rest hu hp hi hs hclaim hfail
  refine ⟨heq, ?_, ?_⟩
  · obtain ⟨_, pre, post, hpool, hrest, _⟩ :=
      claimFresh_some now st.waitingQueue entry rest hclaim
    rw [hpool] at hcount
    rw [hrest]
    rw [List.countP_append, List.countP_cons] at hcount
    simp only [decide_eq_true_eq, if_pos trivial] at hcount
    rw [List.countP_append]
    omega
  · intro rid room hr
    rw [heq] at hr
    exact hrooms rid room hr

/-- Witness for C9: requester `s1` claims waiting entry `(sx, 0)` whose
user `ux` has no profile row; the pool ends empty and no room exists. -/
theorem partnerNotRequeued_spec_witness :
    findRandomMatch profilesAnn 1000 "s1"
        { users := [("s1", "u1"), ("sx", "ux")],
          waitingQueue := [WaitingEntry.mk "sx" 0], randomMatches := [] } =
      ({ users := [("s1", "u1"), ("sx", "ux")], waitingQueue := [],
         randomMatches := [] },
       [errEmit "s1" "Error finding matches."]) :=
  (partnerNotRequeued_spec profilesAnn 1000 "s1"
    { users := [("s1", "u1"), ("sx", "ux")],
      waitingQueue := [WaitingEntry.mk "sx" 0], randomMatches := [] }
    "u1"
    { username := some "Ann", interests := some "music", gender := none,
      location := none, date_of_birth := none, avatar_url := none }
    "music" (WaitingEntry.mk "sx" 0) []
    (by decide) (by decide) (by decide) (by decide) (by decide)
    (Or.inr ⟨"ux", by decide, by decide⟩) (by decide)
    (by intro rid room hr; simp [jsGet] at hr)).1

/-- Witness for the amended C8: the expired entry `(s1, 0)` survives a
scan at `t = 16000` by `s2`, and survives `s2`'s cancel and disconnect. -/
theorem staleEntry_removal_spec_witness :
    WaitingEntry.mk "s1" 0 ∈
      ((findRandomMatch profilesAnn 16000 "s2"
        { users := [("s1", "u1"), ("s2", "u2")],
          waitingQueue := [WaitingEntry.mk "s1" 0],
          randomMatches := [] }).1).waitingQueue :=
  (staleEntry_removal_spec profilesAnn 16000 "s2"
    { users := [("s1", "u1"), ("s2", "u2")],
      waitingQueue := [WaitingEntry.mk "s1" 0], randomMatches := [] }
    (WaitingEntry.mk "s1" 0) (by decide) (by decide)).1

/-- **C10.** The partner scan does not exclude the requester: when a
registered connection whose profile yields a non-empty normalized
interest list issues a second `findRandomMatch` and the claimed fresh
entry is its own, a room `[c, c]` is created whose acceptance map is the
single key `{c: false}` (the JS object literal collapses the duplicate
key), and one `randomMatchAccept` from `c` then passes the all-accepted
check and emits the `connected` status (twice, once per participant
slot, both to `c`). -/
theorem selfMatch_spec (profiles : String → Option Profile) (now : Nat)
    (sid : String) (st : ServerState) (uid : String) (p : Profile)
    (istr : String) (entry : WaitingEntry) (rest : List WaitingEntry)
    (hu : jsGet st.users sid = some uid)
    (hp : profiles uid = some p)
    (hi : p.interests = some istr)
    (hs : istr ≠ "")
    (hclaim : claimFresh now st.waitingQueue = (some entry, rest))
    (hself : entry.socketId = sid)
    (hA : normalizeInterests (some istr) ≠ []) :
    jsGet ((findRandomMatch profiles now sid st).1).randomMatches
        (mkRoomId sid sid) =
      some (createdRoom sid sid uid uid p p now) ∧
    (createdRoom sid sid uid uid p p now).users = [sid, sid] ∧
    (createdRoom sid sid uid uid p p now).acceptances = [(sid, false)] ∧
    ((randomMatchAccept sid (mkRoomId sid sid)
        ((findRandomMatch profiles now sid st).1)).2.map
      (fun em => (em.target, em.payload.status))) =
      [(EmitTarget.socket sid, "connected"), (EmitTarget.socket sid, "connected")] := by
  have hwu : jsGet st.users entry.socketId = some uid := by
    rw [hself]; exact hu
  have hmut : (normalizeInterests (some istr)).any
      (fun i => (normalizeInterests p.interests).contains i) = true := by
    rw [hi]
    obtain ⟨a, t, hAt⟩ := List.exists_cons_of_ne_nil hA
    exact (any_contains_iff _ _).mpr
      ⟨a, by rw [hAt]; exact List.mem_cons_self _ _,
       by rw [hAt]; exact List.mem_cons_self _ _⟩
  have heq := findRandomMatch_success_eq profiles now sid st uid p istr
    entry rest uid p hu hp hi hs hclaim hwu hp hmut
  rw [hself] at heq
  have hacc : (createdRoom sid sid uid uid p p now).acceptances =
      [(sid, false)] := by
    simp [createdRoom, jsSet]
  have hroom : jsGet ((findRandomMatch profiles now sid st).1).randomMatches
      (mkRoomId sid sid) = some (createdRoom sid sid uid uid p p now) := by
    rw [heq]
    exact jsGet_jsSet_self _ _ _
  refine ⟨hroom, rfl, hacc, ?_⟩
  have hall : (createdRoom sid sid uid uid p p now).users.all
      (fun u => (jsGet (jsSet (createdRoom sid sid uid uid p p now).acceptances
        sid true) u).getD false) = true := by
    rw [hacc]
    simp [createdRoom, List.all_cons, jsSet, jsGet]
  rw [randomMatchAccept_all_eq sid (mkRoomId sid sid)
    ((findRandomMatch profiles now sid st).1)
    (createdRoom sid sid uid uid p p now) hroom hall]
  simp [createdRoom, statusEmit]

/-- Witness for C10: `s1` waits at `t = 0` and requests again at
`t = 1000`; its own entry is claimed, the self-room exists with the
single acceptance key, and one accept from `s1` emits `connected` twice. -/
theorem selfMatch_spec_witness :
    jsGet ((findRandomMatch profilesAnn 1000 "s1"
        { users := [("s1", "u1")],
          waitingQueue := [WaitingEntry.mk "s1" 0],
          randomMatches := [] }).1).randomMatches (mkRoomId "s1" "s1") =
      some (createdRoom "s1" "s1" "u1" "u1" annProfile annProfile 1000) :=
  (selfMatch_spec profilesAnn 1000 "s1"
    { users := [("s1", "u1")],
      waitingQueue := [WaitingEntry.mk "s1" 0], randomMatches := [] }
    "u1" annProfile "music" (WaitingEntry.mk "s1" 0) []
    (by decide) (by decide) (by decide) (by decide) (by decide)
    (by decide) (by decide)).1

end Circle
